import Mathlib

/-!
# Verification of the prometheus-am-executor dispatch engine

Shallow embedding of the Go sources of imgix/prometheus-am-executor:
the `countermap` actor, the `chanmap` channel registry, the `Command`
matching / fingerprinting / equality logic, the server admission check
`CanRun`, the environment projection `amDataToEnv`, the startup metric
initialisation, and the error-surfacing conditions of the dispatcher.

Go maps are embedded as association lists (`List (k × v)`) whose keys are
unique, looked up with `List.lookup`; Go `int` is embedded as `Int`;
Go `*bool` is embedded as `Option Bool`; Go `error` values are embedded
as `Option String` (`none` = nil error).
-/

namespace AmExecutor

/-! ## Association-list helpers (Go map assignment and deletion) -/

/-- Go map assignment `m[k] = v`: replace the binding for `k`,
or append a fresh one. -/
def mapInsert {β : Type} : List (String × β) → String → β → List (String × β)
  | [], k, v => [(k, v)]
  | (k0, v0) :: rest, k, v =>
      if k0 == k then (k, v) :: rest else (k0, v0) :: mapInsert rest k v

/-- Go map deletion `delete(m, k)`. -/
def mapErase {β : Type} : List (String × β) → String → List (String × β)
  | [], _ => []
  | (k0, v0) :: rest, k =>
      if k0 == k then rest else (k0, v0) :: mapErase rest k

/-! ## countermap.Counter

Embedded from `countermap.go` (the handler goroutine owns the table
`counts`; every operation is one message processed by `handler`).
The state is the `counts` table; `counterHandle` is one iteration of the
`handler` loop on one message. -/

/-- `msgKind` from countermap.go. -/
inductive MsgKind
  | getValue
  | setValue
  | incValue
  | decValue
  | delValue
deriving DecidableEq

/-- `msg` from countermap.go (`answer` is represented by the returned
`Option MsgAnswer`). -/
structure Msg where
  kind : MsgKind
  key : String
  value : Int
deriving DecidableEq

/-- `msgAnswer` from countermap.go. -/
structure MsgAnswer where
  value : Int
  ok : Bool
deriving DecidableEq

/-- The state owned by `Counter.handler`: the `counts` map. -/
abbrev CounterState := List (String × Int)

/-- Go `int` is 64-bit on the targeted platforms and its arithmetic wraps:
reduce an unbounded integer into the two-complement range
[-2^63, 2^63). -/
def wrap64 (n : Int) : Int := (n + 2 ^ 63) % 2 ^ 64 - 2 ^ 63

/-- One iteration of `Counter.handler` on one message, from countermap.go:
returns the updated `counts` table and the answer sent back (for `getValue`).
`v, ok := counts[m.key]` yields the zero value `0` when the key is absent.
The `+=`, `-=` and unary-minus arithmetic is Go `int` arithmetic and
therefore wraps (`wrap64`); plain stores of `m.value` copy an already
in-range `int` and involve no arithmetic. -/
def counterHandle (counts : CounterState) (m : Msg) : CounterState × Option MsgAnswer :=
  match m.kind with
  | .getValue =>
      (counts, some ⟨(counts.lookup m.key).getD 0, (counts.lookup m.key).isSome⟩)
  | .setValue => (mapInsert counts m.key m.value, none)
  | .incValue =>
      match counts.lookup m.key with
      | none => (mapInsert counts m.key m.value, none)
      | some v => (mapInsert counts m.key (wrap64 (v + m.value)), none)
  | .decValue =>
      match counts.lookup m.key with
      | none => (mapInsert counts m.key (wrap64 (-m.value)), none)
      | some v => (mapInsert counts m.key (wrap64 (v - m.value)), none)
  | .delValue => (mapErase counts m.key, none)

namespace Counter

/-- `Counter.IncBy` from countermap.go. -/
def incBy (counts : CounterState) (key : String) (amt : Int) : CounterState :=
  (counterHandle counts ⟨.incValue, key, amt⟩).1

/-- `Counter.Inc` from countermap.go (calls `IncBy(key, 1)`). -/
def inc (counts : CounterState) (key : String) : CounterState :=
  incBy counts key 1

/-- `Counter.DecBy` from countermap.go. -/
def decBy (counts : CounterState) (key : String) (amt : Int) : CounterState :=
  (counterHandle counts ⟨.decValue, key, amt⟩).1

/-- `Counter.Dec` from countermap.go (calls `DecBy(key, 1)`). -/
def dec (counts : CounterState) (key : String) : CounterState :=
  decBy counts key 1

/-- `Counter.Set` from countermap.go. -/
def set (counts : CounterState) (key : String) (v : Int) : CounterState :=
  (counterHandle counts ⟨.setValue, key, v⟩).1

/-- `Counter.Get` from countermap.go: sends a `getValue` message and reads
the answer `(a.value, a.ok)`. -/
def get (counts : CounterState) (key : String) : Int × Bool :=
  match (counterHandle counts ⟨.getValue, key, 0⟩).2 with
  | some a => (a.value, a.ok)
  | none => (0, false)

end Counter

/-! ## chanmap.ChannelMap

Embedded from `chanmap/chanmap.go`. A `Channel` is a `chan struct{}`
guarded by a `sync.Once`; the observables are the identity of the
underlying channel and whether it has been closed. Channels are named by
allocation order (`nextId`); `closedIds` records which allocated channels
have been closed. -/

/-- The observable state of a `ChannelMap`: the key table (key → channel
id), the set of closed channel ids, and the next fresh id. -/
structure ChanMapState where
  channels : List (String × Nat)
  closedIds : List Nat
  nextId : Nat
deriving DecidableEq

/-- `chanmap.NewChannelMap`. -/
def newChannelMap : ChanMapState := ⟨[], [], 0⟩

/-- `Channel.Close` from chanmap.go: `c.once.Do(func() { close(c.ch) })` —
the underlying channel is closed at most once. -/
def channelCloseOnce (closedIds : List Nat) (c : Nat) : List Nat :=
  if c ∈ closedIds then closedIds else c :: closedIds

/-- `ChannelMap.Add` from chanmap.go: return the channel for `key`,
creating a fresh open one if absent. -/
def chanMapAdd (st : ChanMapState) (key : String) : ChanMapState × Nat :=
  match st.channels.lookup key with
  | some c => (st, c)
  | none =>
      (⟨mapInsert st.channels key st.nextId, st.closedIds, st.nextId + 1⟩, st.nextId)

/-- `ChannelMap.Close` from chanmap.go: if `key` is present, close its
channel (via the once guard) and delete the key; otherwise do nothing. -/
def chanMapClose (st : ChanMapState) (key : String) : ChanMapState :=
  match st.channels.lookup key with
  | none => st
  | some c =>
      ⟨mapErase st.channels key, channelCloseOnce st.closedIds c, st.nextId⟩

/-- Well-formedness of a `ChanMapState`: the key table has unique keys
(a Go map invariant), and every channel id ever handed out (stored in the
table or recorded as closed) is below `nextId`. Holds for `newChannelMap`
and is preserved by `chanMapAdd` / `chanMapClose`. -/
def chanMapWF (st : ChanMapState) : Prop :=
  (st.channels.map Prod.fst).Nodup ∧
  (∀ p ∈ st.channels, p.2 < st.nextId) ∧
  (∀ c ∈ st.closedIds, c < st.nextId)

instance (st : ChanMapState) : Decidable (chanMapWF st) := by
  unfold chanMapWF; infer_instance

/-! ## Alert payload data model

From `github.com/prometheus/alertmanager/template.Data`, as consumed by
the program. Go `time.Time` is embedded by its two observables used here:
`IsZero` and `Unix()` (seconds). -/

/-- The two observables of a Go `time.Time` used by this program. -/
structure AmTime where
  isZero : Bool
  unix : Int
deriving DecidableEq

/-- `template.Alert`. -/
structure Alert where
  status : String
  labels : List (String × String)
  annots : List (String × String)
  startsAt : AmTime
  endsAt : AmTime
  generatorURL : String
  fingerprint : String
deriving DecidableEq

/-- `template.Data`: one alertmanager notification payload. -/
structure TemplateData where
  receiver : String
  status : String
  alerts : List Alert
  groupLabels : List (String × String)
  commonLabels : List (String × String)
  commonAnnots : List (String × String)
  externalURL : String
deriving DecidableEq

/-! ## Command

Embedded from `command.go` (the `Command` struct and its methods) plus
the `ResolvedSig` field, which appears in the config tests of the repository
and `config.go` (`cmd.ParseSignal()`) but whose declaring revision of
command.go is not in the sources. -/

/-- `Result` from command.go: a bit mask over result kinds. -/
abbrev CmdResultKind := Nat

/-- `CmdOk` from command.go (`1 << iota` enumeration). -/
def CmdOk : CmdResultKind := 1

/-- `CmdFail` from command.go. -/
def CmdFail : CmdResultKind := 2

/-- Modelled from the spec: the result kind emitted when the resolve
signal was delivered successfully (spec §4.3 `SigOk`). The revision of
command.go defining it is missing from the sources; the enumeration
position follows the `CmdKillOk` slot of the in-tree command.go. -/
def CmdSigOk : CmdResultKind := 4

/-- Modelled from the spec: the result kind emitted when delivering the
resolve signal failed (spec §4.3 `SigFail`); position follows the
`CmdKillFail` slot of the in-tree command.go. -/
def CmdSigFail : CmdResultKind := 8

/-- Modelled from the spec: the result kind emitted when a resolve is
ignored because of `ignore_resolved` (spec §4.3 `SkipSig`); position
follows the `CmdSkipKill` slot of the in-tree command.go. -/
def CmdSkipSig : CmdResultKind := 16

/-- `Result.Has` from command.go: `r&flag != 0`. -/
def resultHas (r flag : CmdResultKind) : Bool := r &&& flag != 0

/-- `CommandResult` from command.go. -/
structure CommandResult where
  kind : CmdResultKind
  err : Option String
deriving DecidableEq

/-- `Command` from command.go. `ResolvedSig` is modelled from the spec
(`resolved_signal`, §3) and the config tests; the struct revision
declaring it is missing from the sources. -/
structure Command where
  cmd : String
  args : List String
  matchLabels : List (String × String)
  max : Int
  notifyOnFailure : Option Bool
  ignoreResolved : Option Bool
  resolvedSig : String
deriving DecidableEq

namespace Command

/-- `Command.ShouldNotify` from command.go: default `true` when the
yaml value was not defined. -/
def shouldNotify (c : Command) : Bool :=
  match c.notifyOnFailure with
  | none => true
  | some b => b

/-- `Command.ShouldIgnoreResolved` from command.go: default `false` when
the yaml value was not defined. -/
def shouldIgnoreResolved (c : Command) : Bool :=
  match c.ignoreResolved with
  | none => false
  | some b => b

/-- `Command.Matches` from command.go: true when `MatchLabels` is empty,
otherwise every (k,v) of `MatchLabels` must match `msg.CommonLabels`. -/
def matchesMsg (c : Command) (msg : TemplateData) : Bool :=
  if c.matchLabels.length == 0 then true
  else
    c.matchLabels.all fun kv =>
      match msg.commonLabels.lookup kv.1 with
      | some other => kv.2 == other
      | none => false

/-- The body of the inner loop of `Command.Fingerprint` from command.go:
how many entries of `MatchLabels` match the own labels of the alert. -/
def alertMatchCount (c : Command) (a : Alert) : Nat :=
  (c.matchLabels.filter fun kv =>
    match a.labels.lookup kv.1 with
    | some other => kv.2 == other
    | none => false).length

/-- The alert scan of `Command.Fingerprint` from command.go. -/
def fingerprintScan (c : Command) : List Alert → String × Bool
  | [] => ("", false)
  | a :: rest =>
      if alertMatchCount c a == c.matchLabels.length
      then (a.fingerprint, true)
      else fingerprintScan c rest

/-- `Command.Fingerprint` from command.go: the fingerprint of the first
alert all of whose `MatchLabels` entries match, with a `present` flag. -/
def fingerprint (c : Command) (msg : TemplateData) : String × Bool :=
  fingerprintScan c msg.alerts

/-- `Command.Equal` from command.go: compares `Cmd`, `Args` (length and
element-wise) and `MatchLabels` (length and per-key values). -/
def equal (c other : Command) : Bool :=
  if c.cmd != other.cmd then false
  else if c.args.length != other.args.length then false
  else if c.matchLabels.length != other.matchLabels.length then false
  else if !((c.args.zip other.args).all fun p => p.1 == p.2) then false
  else
    c.matchLabels.all fun kv =>
      match other.matchLabels.lookup kv.1 with
      | some ov => kv.2 == ov
      | none => false

end Command

/-- Specification-side matcher for one alert (spec §4.3 `fingerprint`):
the own labels of the alert contain every (k,v) of `match_labels`. -/
def alertMatchesSpec (c : Command) (a : Alert) : Bool :=
  c.matchLabels.all fun kv => a.labels.lookup kv.1 == some kv.2

/-- Specification-side fingerprint (spec §4.3): the fingerprint of the
first alert matched by `alertMatchesSpec`, or `("", false)`. -/
def fingerprintSpec (c : Command) (msg : TemplateData) : String × Bool :=
  match msg.alerts.find? (fun a => alertMatchesSpec c a) with
  | some a => (a.fingerprint, true)
  | none => ("", false)

/-! ## Config merging

Embedded from `config.go` (`Config.HasCommand`, `mergeConfigs`). -/

/-- `Config` from config.go (yaml-visible fields). -/
structure Config where
  listenAddr : String
  verbose : Bool
  tlsKey : String
  tlsCrt : String
  commands : List Command
deriving DecidableEq

/-- `Config.HasCommand` from config.go. -/
def hasCommand (cmds : List Command) (other : Command) : Bool :=
  cmds.any fun cmd => cmd.equal other

/-- `mergeConfigs` from config.go, restricted to non-nil configs: later
configs override scalars, and commands are appended only when no
`Equal` command was already collected. -/
def mergeConfigs (all : List Config) : Config :=
  all.foldl
    (fun merged c =>
      { listenAddr := if c.listenAddr.length > 0 then c.listenAddr else merged.listenAddr
        verbose := merged.verbose || c.verbose
        tlsKey := if c.tlsKey != "" then c.tlsKey else merged.tlsKey
        tlsCrt := if c.tlsCrt != "" then c.tlsCrt else merged.tlsCrt
        commands := c.commands.foldl
          (fun acc cmd => if !hasCommand acc cmd then acc ++ [cmd] else acc)
          merged.commands })
    ⟨"", false, "", "", []⟩

/-! ## Admission: Server.CanRun

Embedded from server.go (`CmdRunReason`, `Server.CanRun`). The server
state relevant to admission is the `fingerCount` counter table. -/

/-- `CmdRunReason` from server.go. -/
inductive CmdRunReason
  | noLabelMatch
  | noMax
  | noFinger
  | fingerUnder
  | fingerOver
deriving DecidableEq

/-- The `CmdRunLabel` map from server.go: prometheus labels for the
admission reasons. -/
def cmdRunLabel : CmdRunReason → String
  | .noLabelMatch => "nomatch"
  | .noMax => "nomax"
  | .noFinger => "nofinger"
  | .fingerUnder => "fingerunder"
  | .fingerOver => "fingerover"

/-- `Server.CanRun` from server.go, with the `fingerCount` counter table
as the server state. -/
def canRun (fingerCount : CounterState) (cmd : Command) (msg : TemplateData) :
    Bool × CmdRunReason :=
  if !cmd.matchesMsg msg then (false, .noLabelMatch)
  else if cmd.max ≤ 0 then (true, .noMax)
  else
    match cmd.fingerprint msg with
    | (fp, ok) =>
      if !ok || fp == "" then (true, .noFinger)
      else
        match Counter.get fingerCount fp with
        | (v, ok2) =>
          if !ok2 || v < cmd.max then (true, .fingerUnder)
          else (false, .fingerOver)

/-- Specification-side admission logic (spec §4.5), written as the five
ordered rules of the spec. -/
def canRunSpec (fingerCount : CounterState) (cmd : Command) (msg : TemplateData) :
    Bool × CmdRunReason :=
  if cmd.matchesMsg msg = false then (false, .noLabelMatch)
  else if cmd.max ≤ 0 then (true, .noMax)
  else
    match cmd.fingerprint msg with
    | (fp, present) =>
      if present = false ∨ fp = "" then (true, .noFinger)
      else
        match fingerCount.lookup fp with
        | none => (true, .fingerUnder)
        | some v => if v < cmd.max then (true, .fingerUnder) else (false, .fingerOver)

/-! ## Environment projection

Embedded from server.go (`amDataToEnv`, `timeToStr`). Go iterates the
label maps in unspecified order; the embedding fixes the textual order of
the source, and the claims compare outputs as multisets. -/

/-- `timeToStr` from server.go: Unix seconds as decimal, zero time as
the literal `"0"`. -/
def timeToStr (t : AmTime) : String :=
  if t.isZero then "0" else toString t.unix

/-- One `p+"_"+k+"="+v` group of `amDataToEnv` from server.go. -/
def kvToEnv (pfx : String) (m : List (String × String)) : List String :=
  m.map fun kv => pfx ++ "_" ++ kv.1 ++ "=" ++ kv.2

/-- The per-alert block of `amDataToEnv` from server.go
(`i` is the 0-based index; the key uses `i+1`). -/
def alertToEnv (i : Nat) (a : Alert) : List String :=
  let key := "AMX_ALERT_" ++ toString (i + 1)
  [key ++ "_STATUS" ++ "=" ++ a.status,
   key ++ "_START" ++ "=" ++ timeToStr a.startsAt,
   key ++ "_END" ++ "=" ++ timeToStr a.endsAt,
   key ++ "_URL" ++ "=" ++ a.generatorURL,
   key ++ "_FINGERPRINT" ++ "=" ++ a.fingerprint]
  ++ kvToEnv (key ++ "_LABEL") a.labels
  ++ kvToEnv (key ++ "_ANNOTATION") a.annots

/-- `amDataToEnv` from server.go. -/
def amDataToEnv (td : TemplateData) : List String :=
  ["AMX_RECEIVER=" ++ td.receiver,
   "AMX_STATUS=" ++ td.status,
   "AMX_EXTERNAL_URL=" ++ td.externalURL,
   "AMX_ALERT_LEN=" ++ toString td.alerts.length]
  ++ kvToEnv "AMX_LABEL" td.commonLabels
  ++ kvToEnv "AMX_GLABEL" td.groupLabels
  ++ kvToEnv "AMX_ANNOTATION" td.commonAnnots
  ++ (td.alerts.enum.map fun p => alertToEnv p.1 p.2).flatten

/-- Specification-side environment list (spec §4.4 / claim wording):
the four fixed variables, one entry per common label, group label and
common annotation, and the per-alert variables at 1-based index `i`. -/
def amDataToEnvSpec (td : TemplateData) : List String :=
  ["AMX_RECEIVER=" ++ td.receiver,
   "AMX_STATUS=" ++ td.status,
   "AMX_EXTERNAL_URL=" ++ td.externalURL,
   "AMX_ALERT_LEN=" ++ toString td.alerts.length]
  ++ (td.commonLabels.map fun kv => "AMX_LABEL" ++ "_" ++ kv.1 ++ "=" ++ kv.2)
  ++ (td.groupLabels.map fun kv => "AMX_GLABEL" ++ "_" ++ kv.1 ++ "=" ++ kv.2)
  ++ (td.commonAnnots.map fun kv => "AMX_ANNOTATION" ++ "_" ++ kv.1 ++ "=" ++ kv.2)
  ++ (td.alerts.enum.map fun p =>
        ["AMX_ALERT_" ++ toString (p.1 + 1) ++ "_STATUS" ++ "=" ++ p.2.status,
         "AMX_ALERT_" ++ toString (p.1 + 1) ++ "_START" ++ "=" ++ timeToStr p.2.startsAt,
         "AMX_ALERT_" ++ toString (p.1 + 1) ++ "_END" ++ "=" ++ timeToStr p.2.endsAt,
         "AMX_ALERT_" ++ toString (p.1 + 1) ++ "_URL" ++ "=" ++ p.2.generatorURL,
         "AMX_ALERT_" ++ toString (p.1 + 1) ++ "_FINGERPRINT" ++ "=" ++ p.2.fingerprint]
        ++ (p.2.labels.map fun kv =>
              "AMX_ALERT_" ++ toString (p.1 + 1) ++ "_LABEL" ++ "_" ++ kv.1 ++ "=" ++ kv.2)
        ++ (p.2.annots.map fun kv =>
              "AMX_ALERT_" ++ toString (p.1 + 1) ++ "_ANNOTATION" ++ "_" ++ kv.1 ++ "=" ++ kv.2)).flatten

/-! ## Startup metric initialisation

Embedded from server.go: the fixed metric label constants and the exact
sequence of `WithLabelValues` pre-touches performed by
`Server.initMetrics`. -/

/-- The three counter families with fixed labels registered by the
server: `errors_total{stage}`, `signalled_total{result}`,
`skipped_total{reason}`. -/
inductive MetricCounter
  | errCounter
  | sigCounter
  | skipCounter
deriving DecidableEq

/-- `ErrLabelRead` from server.go. -/
def errLabelRead : String := "read"

/-- `ErrLabelUnmarshall` from server.go. -/
def errLabelUnmarshall : String := "unmarshal"

/-- `ErrLabelStart` from server.go. -/
def errLabelStart : String := "start"

/-- `SigLabelOk` from server.go. -/
def sigLabelOk : String := "ok"

/-- `SigLabelFail` from server.go. -/
def sigLabelFail : String := "fail"

/-- The exact `WithLabelValues` pre-touch sequence of `Server.initMetrics`
from server.go, in source order. -/
def initMetricsTouches : List (MetricCounter × String) :=
  [(.errCounter, errLabelRead),
   (.errCounter, errLabelUnmarshall),
   (.errCounter, errLabelStart),
   (.sigCounter, errLabelStart),
   (.sigCounter, sigLabelOk),
   (.sigCounter, sigLabelFail),
   (.skipCounter, cmdRunLabel .noLabelMatch),
   (.skipCounter, cmdRunLabel .fingerOver)]

/-- The labels of one counter family pre-touched by `Server.initMetrics`. -/
def initMetricsTouchedLabels (c : MetricCounter) : List String :=
  (initMetricsTouches.filter fun t => t.1 == c).map fun t => t.2

/-! ## Dispatcher error surfacing

Embedded from server.go: the per-result condition under which `collect`
(inside `Server.amFiring`) forwards the error to the HTTP response, and
the per-result condition under which the interceptor inside
`Server.instrument` increments `errors_total{stage="start"}`. -/

/-- The condition of `collect` in `Server.amFiring` from server.go:
`result.Kind.Has(CmdFail) && result.Err != nil && f.cmd.ShouldNotify()`. -/
def collectSurfaces (cmd : Command) (r : CommandResult) : Bool :=
  resultHas r.kind CmdFail && r.err.isSome && cmd.shouldNotify

/-- The condition of the interceptor in `Server.instrument` from
server.go: `r.Kind.Has(CmdFail) && r.Err != nil && cmd.ShouldNotify()`. -/
def instrumentCountsErrStart (cmd : Command) (r : CommandResult) : Bool :=
  resultHas r.kind CmdFail && r.err.isSome && cmd.shouldNotify

/-! ## Launch result traces (Command.Run)

Modelled from the spec: the revision of command.go whose `Run` emits
`SigOk`/`SigFail` and then forwards the child-exit result (the one used
by `Server.instrument`, which consumes `CmdSigOk`/`CmdSigFail`) is
missing from the sources; the in-tree command.go is an older revision.
The model below follows spec §4.3 steps 2-5: the scheduling
nondeterminism (which of child-exit and cancellation wins the select) and
the run-time outcomes are scenario parameters, and a launch is the
ordered list of its emissions followed by the closing of its result
channel. -/

/-- The events observable on the result channel of one launch: emissions of
`CommandResult` items, then the channel closing. -/
inductive RunEvent
  | emit (r : CommandResult)
  | closeOut
deriving DecidableEq

/-- The run-time nondeterminism of one launch: whether the cancellation
channel was signalled while the child was still running, whether the
eventual exit of the child was an error (and its message), and whether
delivering the resolve signal succeeded (with the failure message). -/
structure RunScenario where
  signalledWhileRunning : Bool
  childErr : Option String
  sigSendOk : Bool
  sigErr : String
deriving DecidableEq

/-- Modelled from the spec: the child-exit result of spec §4.3 step 3 —
`{Ok}` on clean exit, `{Fail, exitErr}` otherwise. -/
def childExitResult (sc : RunScenario) : CommandResult :=
  match sc.childErr with
  | none => ⟨CmdOk, none⟩
  | some e => ⟨CmdFail, some e⟩

/-- Modelled from the spec: the ordered event trace of one `Command.Run`
launch, per spec §4.3 steps 2-5 and the single-channel delivery rule of
§4.3/§5 (result items in emission order, channel closed strictly after
the last emission). -/
def runTrace (c : Command) (sc : RunScenario) : List RunEvent :=
  if !sc.signalledWhileRunning then
    [.emit (childExitResult sc), .closeOut]
  else if c.shouldIgnoreResolved then
    [.emit ⟨CmdSkipSig, none⟩, .emit (childExitResult sc), .closeOut]
  else if sc.sigSendOk then
    [.emit ⟨CmdSigOk, none⟩, .emit (childExitResult sc), .closeOut]
  else
    [.emit ⟨CmdSigFail, some sc.sigErr⟩, .emit (childExitResult sc), .closeOut]

/-- Whether an event is the emission of a signalling result
(`SigOk` or `SigFail`). -/
def isSigEmit : RunEvent → Bool
  | .emit r => r.kind == CmdSigOk || r.kind == CmdSigFail
  | .closeOut => false

/-- Whether an event is the emission of a child-exit result
(`Ok` or `Fail`). -/
def isChildExitEmit : RunEvent → Bool
  | .emit r => r.kind == CmdOk || r.kind == CmdFail
  | .closeOut => false

end AmExecutor

namespace AmExecutor

/-! ## Helper lemmas about the association-list map operations -/

theorem lookup_mapInsert_self {β : Type} (l : List (String × β)) (k : String) (v : β) :
    (mapInsert l k v).lookup k = some v := by
  induction l with
  | nil => simp [mapInsert, List.lookup]
  | cons hd tl ih =>
      obtain ⟨k0, v0⟩ := hd
      by_cases h : k0 = k
      · simp [mapInsert, h, List.lookup]
      · have hb : (k0 == k) = false := by simp [h]
        have hb2 : (k == k0) = false := by simp [Ne.symm h]
        simp [mapInsert, hb, List.lookup, hb2, ih]

theorem lookup_mapInsert_ne {β : Type} (l : List (String × β)) (k k2 : String) (v : β)
    (h : k2 ≠ k) : (mapInsert l k v).lookup k2 = l.lookup k2 := by
  have hb0 : (k2 == k) = false := by simp [h]
  induction l with
  | nil => simp [mapInsert, List.lookup, hb0]
  | cons hd tl ih =>
      obtain ⟨k0, v0⟩ := hd
      by_cases hk : k0 = k
      · subst hk
        have hb : (k2 == k0) = false := by simp [h]
        simp [mapInsert, List.lookup, hb]
      · have hb : (k0 == k) = false := by simp [hk]
        simp [mapInsert, hb, List.lookup, ih]

theorem lookup_eq_none_of_not_mem_keys {β : Type} (l : List (String × β)) (k : String)
    (h : k ∉ l.map Prod.fst) : l.lookup k = none := by
  induction l with
  | nil => rfl
  | cons hd tl ih =>
      obtain ⟨k0, v0⟩ := hd
      simp only [List.map_cons, List.mem_cons] at h
      push_neg at h
      have hb : (k == k0) = false := by simp [h.1]
      simp [List.lookup, hb, ih h.2]

theorem lookup_mapErase_self {β : Type} (l : List (String × β)) (k : String)
    (hnd : (l.map Prod.fst).Nodup) : (mapErase l k).lookup k = none := by
  induction l with
  | nil => rfl
  | cons hd tl ih =>
      obtain ⟨k0, v0⟩ := hd
      simp only [List.map_cons, List.nodup_cons] at hnd
      by_cases h : k0 = k
      · subst h
        have he : mapErase ((k0, v0) :: tl) k0 = tl := by simp [mapErase]
        rw [he]
        exact lookup_eq_none_of_not_mem_keys tl k0 hnd.1
      · have hb : (k0 == k) = false := by simp [h]
        have hb2 : (k == k0) = false := by simp [Ne.symm h]
        simp [mapErase, hb, List.lookup, hb2, ih hnd.2]

/-! ## C4 and C10: the countermap actor -/

theorem wrap64_eq_self (n : Int) (h1 : -(2 ^ 63) ≤ n) (h2 : n < 2 ^ 63) :
    wrap64 n = n := by
  unfold wrap64
  have h3 : (0 : Int) ≤ n + 2 ^ 63 := by linarith
  have h4 : n + 2 ^ 63 < 2 ^ 64 := by
    have h5 : (2 : Int) ^ 64 = 2 ^ 63 + 2 ^ 63 := by ring
    linarith
  rw [Int.emod_eq_of_lt h3 h4]
  ring

/-- C4 counterexample: with the table holding MaxInt64 = 2^63 - 1 for a
key, `Inc` wraps to MinInt64 = -2^63, so `Get` after `Inc` does not
return the incremented value at the int64 boundary. -/
theorem counter_inc_wraps_at_int64_boundary :
    Counter.get (Counter.inc [("banana", (2 : Int) ^ 63 - 1)] "banana") "banana"
      = (-(2 ^ 63), true) ∧
    Counter.get (Counter.inc [("banana", (2 : Int) ^ 63 - 1)] "banana") "banana"
      ≠ ((2 ^ 63 - 1) + 1, true) := by
  have hlk : (([("banana", (2 : Int) ^ 63 - 1)] : CounterState).lookup "banana")
      = some (2 ^ 63 - 1) := by simp [List.lookup]
  have hw : wrap64 (9223372036854775808 : Int) = -9223372036854775808 := by
    unfold wrap64
    norm_num
  have heq : Counter.get (Counter.inc [("banana", (2 : Int) ^ 63 - 1)] "banana") "banana"
      = (-(2 ^ 63), true) := by
    simp [Counter.inc, Counter.incBy, Counter.get, counterHandle, hlk,
      lookup_mapInsert_self, hw]
  refine ⟨heq, ?_⟩
  rw [heq]
  intro hcon
  have h1 : -((2 : Int) ^ 63) = 2 ^ 63 - 1 + 1 := congrArg Prod.fst hcon
  have hp : (0 : Int) < 2 ^ 63 := by positivity
  have h2 : (2 : Int) ^ 63 - 1 + 1 = 2 ^ 63 := by ring
  rw [h2] at h1
  linarith

/-- C4 (amended): on a missing key, `Inc`/`Dec`/`IncBy`/`DecBy` create
the key with value +1 / -1 / +n / the 64-bit wrap of -n; on a present
key they add or subtract with wrapping 64-bit `int` arithmetic, which
agrees with the exact sum whenever it lies in int64 range; `Get` on a
missing key returns (0, false); and `Get` after `Inc` returns the 64-bit
wrap of the incremented value — the incremented value itself whenever it
lies in int64 range. -/
theorem counter_create_and_update_wrapping (st : CounterState) (k : String) (n : Int) :
    (st.lookup k = none →
      (Counter.inc st k).lookup k = some 1 ∧
      (Counter.dec st k).lookup k = some (-1) ∧
      (Counter.incBy st k n).lookup k = some n ∧
      (Counter.decBy st k n).lookup k = some (wrap64 (-n)) ∧
      Counter.get st k = (0, false)) ∧
    (∀ v, st.lookup k = some v →
      (Counter.inc st k).lookup k = some (wrap64 (v + 1)) ∧
      (Counter.dec st k).lookup k = some (wrap64 (v - 1)) ∧
      (Counter.incBy st k n).lookup k = some (wrap64 (v + n)) ∧
      (Counter.decBy st k n).lookup k = some (wrap64 (v - n))) ∧
    (∀ v, st.lookup k = some v → -(2 ^ 63) ≤ v + n → v + n < 2 ^ 63 →
      (Counter.incBy st k n).lookup k = some (v + n)) ∧
    Counter.get (Counter.inc st k) k = (wrap64 ((Counter.get st k).1 + 1), true) ∧
    (-(2 ^ 63) ≤ (Counter.get st k).1 + 1 → (Counter.get st k).1 + 1 < 2 ^ 63 →
      Counter.get (Counter.inc st k) k = ((Counter.get st k).1 + 1, true)) := by
  have h63 : (2 : Int) ^ 63 = 9223372036854775808 := by norm_num
  have hw1 : wrap64 (-1 : Int) = -1 :=
    wrap64_eq_self (-1) (by rw [h63]; norm_num) (by rw [h63]; norm_num)
  have hw2 : wrap64 (1 : Int) = 1 :=
    wrap64_eq_self 1 (by rw [h63]; norm_num) (by rw [h63]; norm_num)
  have hD : Counter.get (Counter.inc st k) k
      = (wrap64 ((Counter.get st k).1 + 1), true) := by
    cases h : st.lookup k with
    | none =>
        simp [Counter.inc, Counter.incBy, Counter.get, counterHandle, h,
          lookup_mapInsert_self, hw2]
    | some v =>
        simp [Counter.inc, Counter.incBy, Counter.get, counterHandle, h,
          lookup_mapInsert_self]
  refine ⟨fun h => ?_, fun v h => ?_, fun v h hb1 hb2 => ?_, hD, fun hb1 hb2 => ?_⟩
  · simp [Counter.inc, Counter.dec, Counter.incBy, Counter.decBy, Counter.get,
      counterHandle, h, lookup_mapInsert_self, hw1]
  · simp [Counter.inc, Counter.dec, Counter.incBy, Counter.decBy,
      counterHandle, h, lookup_mapInsert_self]
  · simp [Counter.incBy, counterHandle, h, lookup_mapInsert_self,
      wrap64_eq_self _ hb1 hb2]
  · rw [hD, wrap64_eq_self _ hb1 hb2]

/-- Witness for C4 at concrete inputs (all within int64 range). -/
theorem counter_create_and_update_wrapping_witness :
    (Counter.incBy [] "banana" 4).lookup "banana" = some 4 ∧
    Counter.get [] "banana" = (0, false) ∧
    (Counter.incBy [("banana", (2 : Int))] "banana" 4).lookup "banana" = some 6 ∧
    Counter.get (Counter.inc [("banana", (2 : Int))] "banana") "banana" = (3, true) := by
  have h0 := counter_create_and_update_wrapping [] "banana" 4
  have h1 := counter_create_and_update_wrapping [("banana", (2 : Int))] "banana" 4
  have hlk : (([("banana", (2 : Int))] : CounterState).lookup "banana") = some 2 := by
    simp [List.lookup]
  have hg : Counter.get ([("banana", (2 : Int))] : CounterState) "banana" = (2, true) := by
    simp [Counter.get, counterHandle, List.lookup]
  refine ⟨(h0.1 rfl).2.2.1, (h0.1 rfl).2.2.2.2, ?_, ?_⟩
  · have h2 := h1.2.2.1 2 hlk (by norm_num) (by norm_num)
    simpa using h2
  · have h3 := h1.2.2.2.2 (by rw [hg]; norm_num) (by rw [hg]; norm_num)
    rw [hg] at h3
    simpa using h3

/-- C10: `Counter.Get` is read-only: the `getValue` branch of the handler
leaves the counts table unchanged (in particular it creates no key), and
two consecutive `Get` calls with no intervening mutation return the same
(value, present) pair. -/
theorem counter_get_readonly (st : CounterState) (k : String) :
    (counterHandle st ⟨.getValue, k, 0⟩).1 = st ∧
    (∀ k2, ((counterHandle st ⟨.getValue, k, 0⟩).1).lookup k2 = st.lookup k2) ∧
    Counter.get ((counterHandle st ⟨.getValue, k, 0⟩).1) k = Counter.get st k := by
  exact ⟨rfl, fun k2 => rfl, rfl⟩

end AmExecutor

namespace AmExecutor

theorem mem_of_lookup_eq_some {β : Type} (l : List (String × β)) (k : String) (v : β)
    (h : l.lookup k = some v) : (k, v) ∈ l := by
  induction l with
  | nil => simp [List.lookup] at h
  | cons hd tl ih =>
      obtain ⟨k0, v0⟩ := hd
      by_cases hk : k = k0
      · subst hk
        simp [List.lookup] at h
        simp [h]
      · have hb : (k == k0) = false := by simp [hk]
        simp only [List.lookup, hb] at h
        exact List.mem_cons_of_mem _ (ih h)

/-! ## C7: idempotence of ChannelMap.Close -/

/-- C7: `ChannelMap.Close(k)` is idempotent: the first call closes the
underlying channel (exactly once, via the once guard) and removes the
key; a later `Close(k)` with the key absent is a no-op, so repeating
`Close` has the effect of a single call; and an `Add(k)` after a close
creates a fresh open channel, distinct from the closed one. -/
theorem chanmap_close_idempotent (st : ChanMapState) (k : String) (h : chanMapWF st) :
    (∀ c, st.channels.lookup k = some c →
      c ∈ (chanMapClose st k).closedIds ∧
      (chanMapClose st k).channels.lookup k = none) ∧
    chanMapClose (chanMapClose st k) k = chanMapClose st k ∧
    (st.channels.lookup k = none → chanMapClose st k = st) ∧
    (∀ c, st.channels.lookup k = some c →
      (chanMapAdd (chanMapClose st k) k).2 ∉ (chanMapAdd (chanMapClose st k) k).1.closedIds ∧
      (chanMapAdd (chanMapClose st k) k).2 ≠ c) ∧
    (∀ (ids : List Nat) (c : Nat),
      channelCloseOnce (channelCloseOnce ids c) c = channelCloseOnce ids c) := by
  obtain ⟨hnd, hlt, hcl⟩ := h
  refine ⟨?_, ?_, ?_, ?_, ?_⟩
  · intro c hc
    constructor
    · simp only [chanMapClose, hc, channelCloseOnce]
      by_cases hmem : c ∈ st.closedIds
      · simp [hmem]
      · simp [hmem]
    · simp only [chanMapClose, hc]
      exact lookup_mapErase_self st.channels k hnd
  · cases hc : st.channels.lookup k with
    | none => simp [chanMapClose, hc]
    | some c =>
        have h2 : (chanMapClose st k).channels.lookup k = none := by
          simp only [chanMapClose, hc]
          exact lookup_mapErase_self st.channels k hnd
        simp only [chanMapClose] at h2 ⊢
        simp only [hc]
        simp only [chanMapClose, hc] at h2
        simp [h2]
  · intro hc
    simp [chanMapClose, hc]
  · intro c hc
    have hcnext : c < st.nextId := hlt (k, c) (mem_of_lookup_eq_some st.channels k c hc)
    have hnone : (chanMapClose st k).channels.lookup k = none := by
      simp only [chanMapClose, hc]
      exact lookup_mapErase_self st.channels k hnd
    have hclosed : (chanMapClose st k).closedIds = channelCloseOnce st.closedIds c := by
      simp [chanMapClose, hc]
    have hnext : (chanMapClose st k).nextId = st.nextId := by
      simp [chanMapClose, hc]
    constructor
    · simp only [chanMapAdd, hnone]
      simp only [hclosed, hnext]
      intro hmem
      have : st.nextId ∈ st.closedIds ∨ st.nextId = c := by
        simp only [channelCloseOnce] at hmem
        by_cases hm2 : c ∈ st.closedIds
        · simp [hm2] at hmem
          exact Or.inl hmem
        · simp [hm2] at hmem
          rcases hmem with h1 | h1
          · exact Or.inr h1
          · exact Or.inl h1
      rcases this with h1 | h1
      · exact absurd (hcl st.nextId h1) (lt_irrefl st.nextId)
      · rw [h1] at hcnext
        exact absurd hcnext (lt_irrefl c)
    · simp only [chanMapAdd, hnone, hnext]
      intro heq
      rw [heq] at hcnext
      exact absurd hcnext (lt_irrefl c)
  · intro ids c
    simp only [channelCloseOnce]
    by_cases hm : c ∈ ids
    · simp [hm]
    · simp [hm]

/-- Witness for C7 at a concrete state: the map that holds one open
channel (id 0) for key "boop". -/
theorem chanmap_close_idempotent_witness :
    chanMapClose (chanMapClose ⟨[("boop", 0)], [], 1⟩ "boop") "boop"
      = chanMapClose ⟨[("boop", 0)], [], 1⟩ "boop" ∧
    (chanMapAdd (chanMapClose ⟨[("boop", 0)], [], 1⟩ "boop") "boop").2 ≠ 0 := by
  have h := chanmap_close_idempotent ⟨[("boop", 0)], [], 1⟩ "boop" (by decide)
  exact ⟨h.2.1, (h.2.2.2.1 0 (by decide)).2⟩

end AmExecutor

namespace AmExecutor

/-! ## C3: startup metric pre-touching -/

/-- C3 counterexample: the claim that all five admission reasons are
pre-touched by `Server.initMetrics` is false — the label for `NoMax`
("nomax") is not in the pre-touched skip labels. -/
theorem initMetrics_nomax_not_pretouched :
    cmdRunLabel CmdRunReason.noMax ∉ initMetricsTouchedLabels MetricCounter.skipCounter := by
  decide

/-- C3 (amended): `Server.initMetrics` pre-touches `errors_total` for all
three stages (read, unmarshal, start) and `signalled_total` for both
results (ok, fail) — plus a stray `signalled_total` series labelled
"start" — but `skipped_total` only for the reasons nomatch and
fingerover; the reasons nomax, nofinger and fingerunder are not
pre-touched. -/
theorem initMetrics_pretouch_exact :
    initMetricsTouchedLabels MetricCounter.errCounter
      = [errLabelRead, errLabelUnmarshall, errLabelStart] ∧
    initMetricsTouchedLabels MetricCounter.sigCounter
      = [errLabelStart, sigLabelOk, sigLabelFail] ∧
    initMetricsTouchedLabels MetricCounter.skipCounter
      = [cmdRunLabel .noLabelMatch, cmdRunLabel .fingerOver] ∧
    cmdRunLabel CmdRunReason.noFinger ∉ initMetricsTouchedLabels MetricCounter.skipCounter ∧
    cmdRunLabel CmdRunReason.fingerUnder ∉ initMetricsTouchedLabels MetricCounter.skipCounter := by
  refine ⟨?_, ?_, ?_, ?_, ?_⟩ <;> decide

/-! ## C8: which launch failures reach the HTTP caller and errors{start} -/

/-- C8: a launch result is surfaced to the HTTP caller by `collect`, and
`errors_total{stage="start"}` is incremented by the `instrument`
interceptor, exactly when the result has kind `Fail` with a non-nil
error and the `notify_on_failure` of the command is true (the default when
unset); `SigOk`/`SigFail` results are never surfaced. -/
theorem fail_surfacing_condition :
    (∀ cmd r, collectSurfaces cmd r = instrumentCountsErrStart cmd r) ∧
    (∀ cmd r, collectSurfaces cmd r = true ↔
      (resultHas r.kind CmdFail = true ∧ r.err ≠ none ∧ cmd.shouldNotify = true)) ∧
    (∀ (cs : String) (args : List String) (ml : List (String × String)) (mx : Int)
        (ir : Option Bool) (rs : String),
      Command.shouldNotify ⟨cs, args, ml, mx, none, ir, rs⟩ = true) ∧
    (∀ cmd e, collectSurfaces cmd ⟨CmdSigFail, e⟩ = false) ∧
    (∀ cmd e, collectSurfaces cmd ⟨CmdSigOk, e⟩ = false) := by
  have hsf : resultHas CmdSigFail CmdFail = false := by decide
  have hso : resultHas CmdSigOk CmdFail = false := by decide
  refine ⟨fun cmd r => rfl, fun cmd r => ?_, fun cs args ml mx ir rs => rfl,
    fun cmd e => ?_, fun cmd e => ?_⟩
  · simp only [collectSurfaces, Bool.and_eq_true, Option.isSome_iff_ne_none]
    tauto
  · simp [collectSurfaces, hsf]
  · simp [collectSurfaces, hso]

end AmExecutor

namespace AmExecutor

/-! ## C1: the admission decision CanRun -/

/-- C1: `Server.CanRun` decides admission by exactly the ordered logic of
the spec: no label match → (false, NoLabelMatch); `max ≤ 0` →
(true, NoMax); absent or empty fingerprint → (true, NoFinger); counter
absent or strictly below `max` → (true, FingerUnder); otherwise
(false, FingerOver). -/
theorem canRun_decides_by_spec_order (fc : CounterState) (cmd : Command) (msg : TemplateData) :
    canRun fc cmd msg = canRunSpec fc cmd msg := by
  unfold canRun canRunSpec
  cases hm : cmd.matchesMsg msg with
  | false => simp [hm]
  | true =>
      by_cases hmax : cmd.max ≤ 0
      · simp [hm, hmax]
      · rcases hfp : cmd.fingerprint msg with ⟨fp, ok⟩
        cases ok with
        | false => simp [hm, hmax, hfp]
        | true =>
            by_cases hfe : fp = ""
            · simp [hm, hmax, hfp, hfe]
            · cases hl : fc.lookup fp with
              | none =>
                  simp [hm, hmax, hfp, hfe, Counter.get, counterHandle, hl]
              | some v =>
                  by_cases hv : v < cmd.max
                  · simp [hm, hmax, hfp, hfe, Counter.get, counterHandle, hl, hv]
                  · simp [hm, hmax, hfp, hfe, Counter.get, counterHandle, hl, hv]

/-! ## C6: fingerprint selection -/

theorem filter_length_beq {α : Type} (p : α → Bool) (l : List α) :
    ((l.filter p).length == l.length) = l.all p := by
  induction l with
  | nil => rfl
  | cons hd tl ih =>
      cases hp : p hd with
      | true =>
          simp only [List.filter_cons, hp, if_pos, List.length_cons, List.all_cons,
            Bool.true_and]
          rw [← ih]
          by_cases h : (tl.filter p).length = tl.length
          · simp [h]
          · have h2 : (tl.filter p).length + 1 ≠ tl.length + 1 := by omega
            simp [h, h2]
      | false =>
          have hle : (tl.filter p).length ≤ tl.length := tl.length_filter_le p
          have hne : (tl.filter p).length ≠ tl.length + 1 := by omega
          have hbeq : ((tl.filter p).length == tl.length + 1) = false := by
            simp [hne]
          simp [List.filter_cons, hp, List.all_cons, hbeq]

theorem alertMatchCount_beq_spec (c : Command) (a : Alert) :
    (Command.alertMatchCount c a == c.matchLabels.length) = alertMatchesSpec c a := by
  unfold Command.alertMatchCount alertMatchesSpec
  rw [filter_length_beq]
  congr 1
  funext kv
  cases h : a.labels.lookup kv.1 with
  | none => simp [h]
  | some other =>
      have hred : ((some other : Option String) == some kv.2) = (other == kv.2) := rfl
      simp only [h, hred]
      by_cases he : kv.2 = other
      · simp [he]
      · simp [he, Ne.symm he]

theorem fingerprintScan_eq_spec (c : Command) (l : List Alert) :
    Command.fingerprintScan c l =
      (match l.find? (fun a => alertMatchesSpec c a) with
        | some a => (a.fingerprint, true)
        | none => ("", false)) := by
  induction l with
  | nil => rfl
  | cons a rest ih =>
      rw [Command.fingerprintScan, alertMatchCount_beq_spec]
      cases h : alertMatchesSpec c a with
      | true => simp [h, List.find?_cons_of_pos _ h]
      | false => simp [h, List.find?_cons_of_neg, ih]

/-- C6: `Command.Fingerprint` scans the alerts in order and returns the
fingerprint (with present = true) of the first alert whose own labels
contain every (k,v) of `match_labels` — for empty `match_labels` the
first alert — and `("", false)` when no alert matches; the returned
fingerprint string may be empty while the boolean is true. -/
theorem fingerprint_first_matching_alert :
    (∀ (c : Command) (msg : TemplateData), c.fingerprint msg = fingerprintSpec c msg) ∧
    (∀ (c : Command) (a : Alert) (rest : List Alert) (msg : TemplateData),
      c.matchLabels = [] → msg.alerts = a :: rest →
      c.fingerprint msg = (a.fingerprint, true)) ∧
    (∃ (c : Command) (msg : TemplateData), c.fingerprint msg = ("", true)) := by
  refine ⟨fun c msg => fingerprintScan_eq_spec c msg.alerts, ?_, ?_⟩
  · intro c a rest msg hml halerts
    unfold Command.fingerprint
    rw [halerts, Command.fingerprintScan]
    simp [Command.alertMatchCount, hml]
  · refine ⟨⟨"echo", [], [], 0, none, none, ""⟩,
      ⟨"", "", [⟨"", [], [], ⟨true, 0⟩, ⟨true, 0⟩, "", ""⟩], [], [], [], ""⟩, ?_⟩
    rw [Command.fingerprint, Command.fingerprintScan]
    simp [Command.alertMatchCount]

/-- Witness for C6 at a concrete command (no match labels) and payload
(single alert with fingerprint "boop"). -/
theorem fingerprint_first_matching_alert_witness :
    Command.fingerprint ⟨"echo", [], [], 0, none, none, ""⟩
      ⟨"default", "firing",
        [⟨"firing", [], [], ⟨false, 1460045332⟩, ⟨true, 0⟩, "", "boop"⟩],
        [], [], [], ""⟩
      = ("boop", true) :=
  fingerprint_first_matching_alert.2.1 _ _ [] _ rfl rfl

end AmExecutor

namespace AmExecutor

/-! ## C5: the environment projection -/

/-- C5: `amDataToEnv` produces, as a multiset, exactly the variables the
spec enumerates: the four fixed variables, one `AMX_LABEL_<k>`,
`AMX_GLABEL_<k>` and `AMX_ANNOTATION_<k>` entry per common label, group
label and common annotation, and for each alert at 1-based index i the
five fixed per-alert variables plus one `AMX_ALERT_i_LABEL_<k>` and
`AMX_ALERT_i_ANNOTATION_<k>` entry per entry; times are Unix seconds,
and a zero/unset time renders as the literal "0". -/
theorem amDataToEnv_matches_spec :
    (∀ td : TemplateData, (amDataToEnv td).Perm (amDataToEnvSpec td)) ∧
    (∀ u : Int, timeToStr ⟨true, u⟩ = "0") ∧
    (∀ s : Int, timeToStr ⟨false, s⟩ = toString s) := by
  refine ⟨fun td => ?_, fun u => rfl, fun s => rfl⟩
  have h : amDataToEnv td = amDataToEnvSpec td := rfl
  rw [h]

end AmExecutor

namespace AmExecutor

/-! ## C9: Command.Equal ignores the run-time policy fields -/

theorem zip_self_all_beq (xs : List String) :
    ((xs.zip xs).all fun p => p.1 == p.2) = true := by
  induction xs with
  | nil => rfl
  | cons x xs ih => simp [List.zip_cons_cons, List.all_cons, ih]

theorem lookup_self_of_nodup_keys {β : Type} (l : List (String × β))
    (hnd : (l.map Prod.fst).Nodup) :
    ∀ kv ∈ l, l.lookup kv.1 = some kv.2 := by
  induction l with
  | nil => intro kv h; simp at h
  | cons hd tl ih =>
      obtain ⟨k0, v0⟩ := hd
      simp only [List.map_cons, List.nodup_cons] at hnd
      intro kv hm
      rcases List.mem_cons.mp hm with h | h
      · subst h
        simp [List.lookup]
      · by_cases hk : kv.1 = k0
        · exfalso
          apply hnd.1
          rw [← hk]
          exact List.mem_map_of_mem Prod.fst h
        · have hb : (kv.1 == k0) = false := by simp [hk]
          simp only [List.lookup, hb]
          exact ih hnd.2 kv h

/-- C9: `Command.Equal` compares only the program name, the argument list
in order and the match-label mapping, so two commands that differ only in
`Max`, `NotifyOnFailure`, `IgnoreResolved` or `ResolvedSig` are `Equal`,
and `mergeConfigs` then keeps only the earlier one when unioning the
command lists. -/
theorem equal_ignores_policy_fields (a b : Command) (c1 c2 : Config)
    (hcmd : a.cmd = b.cmd) (hargs : a.args = b.args)
    (hml : a.matchLabels = b.matchLabels)
    (hnd : (a.matchLabels.map Prod.fst).Nodup) :
    Command.equal a b = true ∧
    (c1.commands = [a] → c2.commands = [b] →
      (mergeConfigs [c1, c2]).commands = [a]) := by
  have heq : Command.equal a b = true := by
    unfold Command.equal
    rw [← hcmd, ← hargs, ← hml]
    simp only [bne_self_eq_false, Bool.false_eq_true, if_false, zip_self_all_beq,
      Bool.not_true]
    rw [List.all_eq_true]
    intro kv hm
    rw [lookup_self_of_nodup_keys a.matchLabels hnd kv hm]
    simp
  refine ⟨heq, fun h1 h2 => ?_⟩
  simp [mergeConfigs, h1, h2, hasCommand, heq]

/-- Witness for C9: two commands sharing program, arguments and labels
but differing in max, notify_on_failure, ignore_resolved and
resolved_signal are merged into one. -/
theorem equal_ignores_policy_fields_witness :
    Command.equal ⟨"echo", ["x"], [("env", "testing")], 0, none, none, ""⟩
      ⟨"echo", ["x"], [("env", "testing")], 5, some false, some true, "sigusr2"⟩ = true ∧
    (mergeConfigs
      [⟨":8080", false, "", "", [⟨"echo", ["x"], [("env", "testing")], 0, none, none, ""⟩]⟩,
       ⟨"", true, "", "", [⟨"echo", ["x"], [("env", "testing")], 5, some false, some true, "sigusr2"⟩]⟩]).commands
      = [⟨"echo", ["x"], [("env", "testing")], 0, none, none, ""⟩] := by
  have h := equal_ignores_policy_fields
    ⟨"echo", ["x"], [("env", "testing")], 0, none, none, ""⟩
    ⟨"echo", ["x"], [("env", "testing")], 5, some false, some true, "sigusr2"⟩
    ⟨":8080", false, "", "", [⟨"echo", ["x"], [("env", "testing")], 0, none, none, ""⟩]⟩
    ⟨"", true, "", "", [⟨"echo", ["x"], [("env", "testing")], 5, some false, some true, "sigusr2"⟩]⟩
    rfl rfl rfl (by decide)
  exact ⟨h.1, h.2 rfl rfl⟩

/-! ## C2: the result trace of a signalled launch -/

/-- C2: a launch whose cancellation channel is signalled while the child
is running and whose command has `ignore_resolved = false` emits a
`SigOk` or `SigFail` result, then the child-exit result, and its result
channel closes only at the very end of the launch. -/
theorem run_signalled_emits_sig_then_exit (c : Command) (sc : RunScenario)
    (hs : sc.signalledWhileRunning = true)
    (hi : c.shouldIgnoreResolved = false) :
    ∃ sig child : CommandResult,
      (sig.kind = CmdSigOk ∨ sig.kind = CmdSigFail) ∧
      (child.kind = CmdOk ∨ child.kind = CmdFail) ∧
      runTrace c sc = [.emit sig, .emit child, .closeOut] := by
  have hchild : (childExitResult sc).kind = CmdOk ∨ (childExitResult sc).kind = CmdFail := by
    unfold childExitResult
    cases sc.childErr with
    | none => exact Or.inl rfl
    | some e => exact Or.inr rfl
  unfold runTrace
  rw [hs, hi]
  cases hk : sc.sigSendOk with
  | true =>
      refine ⟨⟨CmdSigOk, none⟩, childExitResult sc, Or.inl rfl, hchild, ?_⟩
      simp
  | false =>
      refine ⟨⟨CmdSigFail, some sc.sigErr⟩, childExitResult sc, Or.inr rfl, hchild, ?_⟩
      simp

/-- Witness for C2: a concrete signalled launch of a `sleep 4s` command
whose child exits with an error after the signal is delivered. -/
theorem run_signalled_emits_sig_then_exit_witness :
    ∃ sig child : CommandResult,
      (sig.kind = CmdSigOk ∨ sig.kind = CmdSigFail) ∧
      (child.kind = CmdOk ∨ child.kind = CmdFail) ∧
      runTrace ⟨"sleep", ["4s"], [], 0, none, none, ""⟩ ⟨true, some "killed", true, ""⟩
        = [.emit sig, .emit child, .closeOut] :=
  run_signalled_emits_sig_then_exit _ _ rfl rfl

end AmExecutor
